import Mathlib

/-!
Verification of the path-resolution / suggestion engine and the
mount-prerequisite / unmount protocol of the rclone-ui repository.

The embedding below translates:
  * `src/src/components/PathFinder.tsx` — `fetchSuggestions`, `handleBrowse`,
    and the per-field React state (`suggestions`, `isLoading`, `error`,
    plus the `sourcePath`/`destPath` props as the raw text);
  * `src/unnamed/part_001` — `unmount`.

External effects (filesystem reads, the remote listing API, the native
folder picker, command execution, the confirmation dialog) are passed in
as explicit environments, and the JavaScript string operations used by the
source (`split`, `join`, `endsWith`, `slice(0,-1)`, `toLowerCase`,
`includes`) are modelled on `List Char`.
-/

deriving instance DecidableEq for Except

namespace RcloneUI

/-- A normalized suggestion item, exactly the object shape built in
`fetchSuggestions` (`{ IsDir, Name, Path }`). -/
structure Entry where
  IsDir : Bool
  Name : String
  Path : String
deriving DecidableEq

/-- A local directory entry as returned by the `readDir` plugin
(the fields consumed by the source: `name`, `isDirectory`, `isSymlink`). -/
structure DirEntry where
  name : String
  isDirectory : Bool
  isSymlink : Bool
deriving DecidableEq

/-- An item returned by the remote listing API (`listPath`): the source
consumes `IsDir` and `Path`. -/
structure RemoteItem where
  IsDir : Bool
  Path : String
deriving DecidableEq

/-- Environment for `fetchSuggestions`: the two fallible listing
primitives it awaits.  An `Except.error` models a thrown exception whose
`message` is the carried string. -/
structure FsEnv where
  readDir : String → Except String (List DirEntry)
  listPath : String → String → Except String (List RemoteItem)

/-- Output of the `umount` command execution (`{ code, stdout, stderr }`). -/
structure CmdOutput where
  code : Int
  stdout : String
  stderr : String
deriving DecidableEq

/-! ## JavaScript string operations, modelled on `List Char` -/

/-- JS `s.split(sep)` for a single-character separator. -/
def jsSplitChar (sep : Char) : List Char → List (List Char)
  | [] => [[]]
  | c :: rest =>
    if c = sep then [] :: jsSplitChar sep rest
    else
      match jsSplitChar sep rest with
      | [] => [[c]]
      | h :: t => (c :: h) :: t

/-- JS `s.split(':/')`: split on every (non-overlapping, left-to-right)
occurrence of the two-character separator `":/"`. -/
def jsSplitSep2 : List Char → List (List Char)
  | [] => [[]]
  | [c] => [[c]]
  | c1 :: c2 :: rest =>
    if c1 = ':' ∧ c2 = '/' then [] :: jsSplitSep2 rest
    else
      match jsSplitSep2 (c2 :: rest) with
      | [] => [[c1]]
      | h :: t => (c1 :: h) :: t

/-- Split a character list at the first occurrence of `":/"`: returns
(everything before the first occurrence, everything after it), or `none`
when the separator does not occur.  This is the wording of the spec
("everything before the first occurrence ... everything after"), used to
compare against the code's `split(':/')`-based parsing. -/
def splitFirstSep2 : List Char → Option (List Char × List Char)
  | [] => none
  | [_] => none
  | c1 :: c2 :: rest =>
    if c1 = ':' ∧ c2 = '/' then some ([], rest)
    else
      match splitFirstSep2 (c2 :: rest) with
      | none => none
      | some (a, b) => some (c1 :: a, b)

/-- Replace every (non-overlapping, left-to-right) occurrence of `":/"`
by `"/"`.  Joining the tail of `split(':/')` with `"/"` is exactly this
operation applied to the text after the first separator. -/
def collapseSep : List Char → List Char
  | [] => []
  | [c] => [c]
  | c1 :: c2 :: rest =>
    if c1 = ':' ∧ c2 = '/' then '/' :: collapseSep rest
    else c1 :: collapseSep (c2 :: rest)

/-- JS `if (s.endsWith('/')) s = s.slice(0, -1)`: strip one trailing
slash. -/
def stripSlash (l : List Char) : List Char :=
  if l.getLast? = some '/' then l.dropLast else l

/-- Substring test (JS `includes`). -/
def hasSub (pat : List Char) : List Char → Bool
  | [] => pat.isEmpty
  | c :: rest => pat.isPrefixOf (c :: rest) || hasSub pat rest

/-- JS `s.toLowerCase().includes(pat)` for an already-lowercase pattern. -/
def includesLower (s : String) (pat : String) : Bool :=
  hasSub pat.data (s.data.map Char.toLower)

/-! ## Address classification and remote parsing -/

/-- Modelled from the spec: `isRemotePath` (imported from `lib/fs`, a file
not among the provided sources) — per §4.1 of the spec, a non-empty path
is a remote address exactly when it contains the separator sequence
`":/"`. -/
def isRemotePath (p : String) : Bool :=
  (splitFirstSep2 p.data).isSome

/-- The remote-address parsing of `fetchSuggestions`:
`const [remote, ...pathParts] = path.split(':/')`, throw
`'Invalid remote path format'` when `remote` is falsy, then
`pathParts.join('/')` with one trailing `'/'` sliced off. -/
def parseRemotePath (p : String) : Except String (String × String) :=
  match jsSplitSep2 p.data with
  | [] => .error "Invalid remote path format"
  | remote :: pathParts =>
    if remote.isEmpty then .error "Invalid remote path format"
    else .ok (String.mk remote, String.mk (stripSlash (List.intercalate ['/'] pathParts)))

/-! ## Local listing -/

/-- `platform() === 'windows' ? '\\' : '/'`. -/
def slashChar (isWin : Bool) : Char := if isWin then '\\' else '/'

/-- `path.split(slashSymbol).slice(0, -1).join(slashSymbol)` — the
parent-directory truncation used for the single local retry. -/
def parentOf (sep : Char) (p : String) : String :=
  String.mk (List.intercalate [sep] ((jsSplitChar sep p.data).dropLast))

/-- The two-attempt local listing of `fetchSuggestions`: try `readDir`
on the path verbatim; on failure retry once on the parent; if that also
fails the error is only logged and the entry list stays empty.  Returns
the `cleanedPath` in effect after the attempts together with the entries. -/
def localResolve (env : FsEnv) (sep : Char) (path : String) :
    String × List DirEntry :=
  match env.readDir path with
  | .ok l => (path, l)
  | .error _ =>
    match env.readDir (parentOf sep path) with
    | .ok l => (parentOf sep path, l)
    | .error _ => (parentOf sep path, [])

/-- `const extraSlash = cleanedPath.endsWith(slashSymbol) ? '' : slashSymbol`. -/
def extraSlash (sep : Char) (cleaned : String) : String :=
  if cleaned.data.getLast? = some sep then "" else String.mk [sep]

/-- The local suggestion list: drop symlinks, keep `isDirectory`/`name`,
and rebuild each `Path` as `cleanedPath + extraSlash + entry.name`. -/
def localSuggestions (env : FsEnv) (sep : Char) (path : String) : List Entry :=
  ((localResolve env sep path).2.filter (fun e => !e.isSymlink)).map
    (fun e => { IsDir := e.isDirectory, Name := e.name,
                Path := (localResolve env sep path).1
                          ++ extraSlash sep (localResolve env sep path).1
                          ++ e.name })

/-! ## The resolution outcome of `fetchSuggestions` -/

/-- The body of `fetchSuggestions` for one field, as a pure outcome:
`.ok items` is the argument of the final `setSuggestions` on the success
paths, `.error msg` is the message stored by the outer `catch` (which
also clears the suggestions). -/
def fetchOutcome (env : FsEnv) (isWin : Bool) (remotes : List String)
    (path : String) : Except String (List Entry) :=
  if path = "" then
    .ok (remotes.map fun r => { IsDir := true, Name := r ++ ":/", Path := r ++ ":/" })
  else if isRemotePath path = false then
    .ok (localSuggestions env (slashChar isWin) path)
  else
    match parseRemotePath path with
    | .error msg => .error msg
    | .ok rp =>
      match env.listPath rp.1 rp.2 with
      | .ok items =>
        .ok (items.map fun it =>
          { IsDir := it.IsDir, Name := it.Path, Path := rp.1 ++ ":/" ++ it.Path })
      | .error msg => .error msg

/-! ## Per-field component state -/

/-- The two logical fields of the PathFinder. -/
inductive PFField
  | source
  | dest
deriving DecidableEq

/-- The other field. -/
def PFField.other : PFField → PFField
  | .source => .dest
  | .dest => .source

/-- One field's state: the `sourcePath`/`destPath` prop (raw text) and the
field's slots of the `suggestions`, `isLoading` and `error` records. -/
structure FieldState where
  rawText : String
  suggestions : List Entry
  isLoading : Bool
  error : Option String
deriving DecidableEq

/-- The state of both fields. -/
structure PFState where
  source : FieldState
  dest : FieldState
deriving DecidableEq

def PFState.get (st : PFState) : PFField → FieldState
  | .source => st.source
  | .dest => st.dest

def PFState.set (st : PFState) : PFField → FieldState → PFState
  | .source, fs => { st with source := fs }
  | .dest, fs => { st with dest := fs }

/-- The writes performed at the start of `fetchSuggestions`:
`setIsLoading(..true)` and `setError(..null)` for the field. -/
def initEffect (f : PFField) (st : PFState) : PFState :=
  st.set f { st.get f with isLoading := true, error := none }

/-- The writes performed when one `fetchSuggestions` invocation completes:
on success `setSuggestions` replaces the field's list (the error slot,
cleared at initiation, is not written); on failure `setError` stores the
message and `setSuggestions` clears the list; `finally` resets
`isLoading`.  Each setter is a functional update touching only `f`'s slot. -/
def completionEffect (f : PFField) (o : Except String (List Entry))
    (st : PFState) : PFState :=
  match o with
  | .ok items => st.set f { st.get f with suggestions := items, isLoading := false }
  | .error msg =>
    st.set f { st.get f with error := some msg, suggestions := [], isLoading := false }

/-- One full, uninterleaved resolution cycle for a field. -/
def fetchStep (env : FsEnv) (isWin : Bool) (remotes : List String)
    (path : String) (f : PFField) (st : PFState) : PFState :=
  completionEffect f (fetchOutcome env isWin remotes path) (initEffect f st)

/-- Interleaved completions: the completion-time writes of several
in-flight resolutions, applied in the order the responses arrive.  The
source applies every completion unconditionally (there is no sequence
check), so this is a plain fold. -/
def runCompletions (st : PFState)
    (l : List (PFField × Except String (List Entry))) : PFState :=
  l.foldl (fun s fo => completionEffect fo.1 fo.2 s) st

/-! ## `handleBrowse` -/

/-- Result of one `handleBrowse` call: the resulting state plus how often
`lockWindows` and `unlockWindows` were awaited. -/
structure BrowseOut where
  st : PFState
  lockCalls : Nat
  unlockCalls : Nat
deriving DecidableEq

/-- `handleBrowse(field)`: `lockWindows()`, then the native picker
(`pick` is its oracle: `.error` models a throw, `.ok none` a cancelled
dialog, `.ok (some s)` a selection), then `unlockWindows()`, then the
selection (if truthy) is written to the field's path prop.  A throw jumps
to the `catch`, which only stores the field-scoped error string — note
the `unlockWindows()` call sits after `open` on the success path only. -/
def handleBrowseRun (pick : Except String (Option String)) (f : PFField)
    (st : PFState) : BrowseOut :=
  match pick with
  | .error _ =>
    { st := st.set f { st.get f with error := some "Failed to open folder picker" },
      lockCalls := 1, unlockCalls := 0 }
  | .ok none => { st := st, lockCalls := 1, unlockCalls := 1 }
  | .ok (some s) =>
    if s = "" then { st := st, lockCalls := 1, unlockCalls := 1 }
    else { st := st.set f { st.get f with rawText := s }, lockCalls := 1, unlockCalls := 1 }

/-! ## `unmount` (src/unnamed/part_001) -/

/-- `unmount(mountPoint, force)`.  `env mp force` is the `{code, stdout,
stderr}` of executing `umount [force ? '-f' : ''] mountPoint`; `answers`
feeds the `ask` confirmation dialog (one element consumed per prompt; an
exhausted list behaves as a decline).  Returns the call's result
(`.error` models the thrown `Error(output.stderr)`) together with the
list of `force` flags of every command execution performed, in order. -/
def unmountRun (env : String → Bool → CmdOutput) (answers : List Bool)
    (mp : String) (force : Bool) : Except String Unit × List Bool :=
  if (env mp force).code = 0 then (.ok (), [force])
  else if includesLower (env mp force).stderr "busy" then
    match answers with
    | [] => (.error (env mp force).stderr, [force])
    | a :: rest =>
      if a then
        match unmountRun env rest mp true with
        | (r, calls) => (r, force :: calls)
      else (.error (env mp force).stderr, [force])
  else if includesLower (env mp force).stderr "not currently mounted" then
    (.ok (), [force])
  else (.error (env mp force).stderr, [force])

/-! ## Concrete scenarios -/

/-- Both fields freshly mounted: empty text, no suggestions, no error. -/
def st0 : PFState := ⟨⟨"", [], false, none⟩, ⟨"", [], false, none⟩⟩

/-- Filesystem with two listable directories `/a` and `/ab`, used to race
the two resolutions triggered by typing `a` and then `ab`. -/
def envRace : FsEnv :=
  ⟨fun p =>
    if p = "/a" then .ok [⟨"x", true, false⟩]
    else if p = "/ab" then .ok [⟨"y", true, false⟩]
    else .error "nope",
   fun _ _ => .error "nope"⟩

/-- Filesystem on which every listing attempt throws. -/
def envF4 : FsEnv := ⟨fun _ => .error "boom", fun _ _ => .error "boom"⟩

/-- Filesystem where only `/tmp` is listable (one real child plus one
symlink), so listing `/tmp/foo` succeeds only via the parent retry. -/
def envC8 : FsEnv :=
  ⟨fun p =>
    if p = "/tmp" then .ok [⟨"x", true, false⟩, ⟨"ln", true, true⟩]
    else .error "nf",
   fun _ _ => .error "nf"⟩

/-- `umount` always exits 1 reporting the target as busy. -/
def envBusy2 : String → Bool → CmdOutput :=
  fun _ _ => ⟨1, "", "umount: /mnt/x: target is busy."⟩

/-- `umount` exits 1 with a busy stderr (capitalised differently). -/
def envBusy7 : String → Bool → CmdOutput :=
  fun _ _ => ⟨1, "", "Resource Busy"⟩

/-- `umount` exits 1 with a stderr mentioning both busy-ness and
not-currently-mounted. -/
def envBoth : String → Bool → CmdOutput :=
  fun _ _ => ⟨1, "", "target is busy (not currently mounted)"⟩

/-- `umount` exits 1 reporting the target as not currently mounted. -/
def envNm : String → Bool → CmdOutput :=
  fun _ _ => ⟨1, "", "umount: /mnt/x: not currently mounted"⟩

/-! ## State helper lemmas -/

@[simp]
theorem get_set_self (st : PFState) (f : PFField) (x : FieldState) :
    (st.set f x).get f = x := by
  cases f <;> rfl

@[simp]
theorem get_set_other (st : PFState) (f : PFField) (x : FieldState) :
    (st.set f x).get f.other = st.get f.other := by
  cases f <;> rfl

/-! ## Split/join lemmas -/

theorem jsSplitSep2_ne_nil (l : List Char) : jsSplitSep2 l ≠ [] := by
  induction l using jsSplitSep2.induct with
  | case1 => simp [jsSplitSep2]
  | case2 c => simp [jsSplitSep2]
  | case3 c1 c2 rest hcond ih => simp [jsSplitSep2, hcond]
  | case4 c1 c2 rest hcond hnil ih => simp [jsSplitSep2, hcond, hnil]
  | case5 c1 c2 rest hcond h t hht ih => simp [jsSplitSep2, hcond, hht]

/-- The head of `split(':/')` is everything before the first occurrence
of `":/"`, and the tail is the split of everything after it. -/
theorem jsSplitSep2_of_first (l a b : List Char)
    (h : splitFirstSep2 l = some (a, b)) :
    jsSplitSep2 l = a :: jsSplitSep2 b := by
  induction l using splitFirstSep2.induct generalizing a b with
  | case1 => simp [splitFirstSep2] at h
  | case2 c => simp [splitFirstSep2] at h
  | case3 c1 c2 rest hcond =>
    simp only [splitFirstSep2, if_pos hcond, Option.some.injEq, Prod.mk.injEq] at h
    obtain ⟨rfl, rfl⟩ := h
    simp [jsSplitSep2, hcond]
  | case4 c1 c2 rest hcond hnone ih =>
    rw [splitFirstSep2, if_neg hcond, hnone] at h
    exact Option.noConfusion h
  | case5 c1 c2 rest hcond a2 b2 hsome ih =>
    simp only [splitFirstSep2, if_neg hcond, hsome, Option.some.injEq, Prod.mk.injEq] at h
    obtain ⟨rfl, rfl⟩ := h
    simp [jsSplitSep2, hcond, ih a2 b2 hsome]

theorem intercalate_cons_cons (s x y : List Char) (t : List (List Char)) :
    List.intercalate s (x :: y :: t) = x ++ s ++ List.intercalate s (y :: t) := by
  simp [List.intercalate, List.intersperse_cons₂, List.append_assoc]

theorem intercalate_cons_head (s : List Char) (c : Char) (h : List Char)
    (t : List (List Char)) :
    List.intercalate s ((c :: h) :: t) = c :: List.intercalate s (h :: t) := by
  cases t with
  | nil => simp [List.intercalate]
  | cons y t2 => simp [intercalate_cons_cons]

/-- Joining `split(':/')` with `"/"` replaces every (non-overlapping)
occurrence of `":/"` by `"/"`. -/
theorem intercalate_jsSplitSep2 (l : List Char) :
    List.intercalate ['/'] (jsSplitSep2 l) = collapseSep l := by
  induction l using jsSplitSep2.induct with
  | case1 => simp [jsSplitSep2, collapseSep, List.intercalate]
  | case2 c => simp [jsSplitSep2, collapseSep, List.intercalate]
  | case3 c1 c2 rest hcond ih =>
    rcases hht : jsSplitSep2 rest with _ | ⟨h1, t1⟩
    · exact absurd hht (jsSplitSep2_ne_nil rest)
    · rw [hht] at ih
      simp [jsSplitSep2, collapseSep, hcond, hht, intercalate_cons_cons, ← ih]
  | case4 c1 c2 rest hcond hnil ih =>
    exact absurd hnil (jsSplitSep2_ne_nil (c2 :: rest))
  | case5 c1 c2 rest hcond h1 t1 hht ih =>
    rw [hht] at ih
    simp only [jsSplitSep2, if_neg hcond, hht]
    rw [intercalate_cons_head, ih]
    simp [collapseSep, hcond]

/-! ## Claim theorems -/

/-- C1: the code has no sequence tagging — every completion overwrites the
field's suggestions unconditionally, so when the resolution initiated
first (for `/a`, sequence N) completes after the one initiated second
(for `/ab`, sequence N+1), the field ends up showing the stale result of
resolution N, not the result of resolution N+1.  This refutes the claimed
last-writer-wins-by-initiation guarantee. -/
theorem fetch_race_stale_completion_wins :
    ((runCompletions st0
        [(.source, fetchOutcome envRace false [] "/ab"),
         (.source, fetchOutcome envRace false [] "/a")]).get .source).suggestions
      = [⟨true, "x", "/a/x"⟩]
  ∧ fetchOutcome envRace false [] "/a" = .ok [⟨true, "x", "/a/x"⟩]
  ∧ fetchOutcome envRace false [] "/ab" = .ok [⟨true, "y", "/ab/y"⟩]
  ∧ ([⟨true, "x", "/a/x"⟩] : List Entry) ≠ [⟨true, "y", "/ab/y"⟩] := by
  decide

/-- C2: a call `unmount(mp, force := true)` whose command exits non-zero
with a busy stderr does NOT fail immediately: it shows the busy prompt
again, and when the user confirms, the unmount command is executed a
second time from that same call (call trace `[true, true]`), refuting the
claimed bound of one forced retry. -/
theorem unmount_force_busy_reinvokes :
    (envBusy2 "/mnt/x" true).code ≠ 0
  ∧ includesLower (envBusy2 "/mnt/x" true).stderr "busy" = true
  ∧ unmountRun envBusy2 [true] "/mnt/x" true
      = (.error "umount: /mnt/x: target is busy.", [true, true]) := by
  decide

/-- C3: when the native folder picker throws, `handleBrowse` jumps to its
`catch` without ever reaching the `unlockWindows()` call that sits after
`open` — the UI-exclusivity lock is acquired (one `lockWindows` call) but
never released (zero `unlockWindows` calls), while the field-scoped error
string is set.  This refutes the claim that the lock is released on every
exit path. -/
theorem browse_picker_failure_leaks_lock :
    (handleBrowseRun (.error "dialog failed") .source st0).lockCalls = 1
  ∧ (handleBrowseRun (.error "dialog failed") .source st0).unlockCalls = 0
  ∧ ((handleBrowseRun (.error "dialog failed") .source st0).st.get .source).error
      = some "Failed to open folder picker" := by
  decide

/-- C4 (counterexample): a non-empty local path on which both the
verbatim listing and the parent-directory retry throw ends the resolution
with `error = none` — the inner `catch` only logs, so the failure never
reaches the field's error channel, refuting the claim that `lastError` is
set to an error message. -/
theorem local_double_failure_error_not_set :
    ("/tmp/zz" : String) ≠ ""
  ∧ isRemotePath "/tmp/zz" = false
  ∧ envF4.readDir "/tmp/zz" = .error "boom"
  ∧ envF4.readDir (parentOf (slashChar false) "/tmp/zz") = .error "boom"
  ∧ ((fetchStep envF4 false ["r"] "/tmp/zz" .source st0).get .source).error = none := by
  decide

/-- C4 (amended): when a non-empty local path fails both the verbatim
listing and the single parent-directory retry, the resolution ends with
the field's suggestions empty and its `lastError` still `null` (it was
cleared at initiation and is never set — the double failure is only
logged to the console, not surfaced). -/
theorem local_double_failure_empty_no_error (env : FsEnv) (w : Bool)
    (rs : List String) (path : String) (f : PFField) (st : PFState)
    (m1 m2 : String)
    (hne : path ≠ "") (hloc : isRemotePath path = false)
    (h1 : env.readDir path = .error m1)
    (h2 : env.readDir (parentOf (slashChar w) path) = .error m2) :
    ((fetchStep env w rs path f st).get f).suggestions = []
  ∧ ((fetchStep env w rs path f st).get f).error = none := by
  simp [fetchStep, fetchOutcome, completionEffect, initEffect,
        localSuggestions, localResolve, hne, hloc, h1, h2]

/-- Witness for the amended C4 theorem at a concrete scenario. -/
theorem local_double_failure_empty_no_error_witness :
    ((fetchStep envF4 false ["r"] "/tmp/zz" .source st0).get .source).suggestions = []
  ∧ ((fetchStep envF4 false ["r"] "/tmp/zz" .source st0).get .source).error = none :=
  local_double_failure_empty_no_error envF4 false ["r"] "/tmp/zz" .source st0
    "boom" "boom" (by decide) (by decide) rfl rfl

/-- C6 (counterexample): the code checks the busy branch before the
not-currently-mounted branch, so a non-zero exit whose stderr contains
both "busy" and "not currently mounted" enters the busy prompt and (on
decline) fails — it does not return success, refuting the claim for such
stderr values. -/
theorem unmount_not_mounted_busy_cex :
    (envBoth "/mnt/x" false).code ≠ 0
  ∧ includesLower (envBoth "/mnt/x" false).stderr "not currently mounted" = true
  ∧ (unmountRun envBoth [false] "/mnt/x" false).1
      = .error "target is busy (not currently mounted)" := by
  decide

/-- C6 (amended): for every mount point and force flag, a non-zero exit
whose stderr contains "not currently mounted" (case-insensitive) and does
NOT contain "busy" makes `unmount` return success, with exactly one
command invocation. -/
theorem unmount_not_mounted_idempotent (env : String → Bool → CmdOutput)
    (answers : List Bool) (mp : String) (force : Bool)
    (hc : (env mp force).code ≠ 0)
    (hb : includesLower (env mp force).stderr "busy" = false)
    (hn : includesLower (env mp force).stderr "not currently mounted" = true) :
    unmountRun env answers mp force = (.ok (), [force]) := by
  cases answers <;> simp [unmountRun, hc, hb, hn]

/-- Witness for the amended C6 theorem at a concrete scenario. -/
theorem unmount_not_mounted_idempotent_witness :
    unmountRun envNm [] "/mnt/x" true = (.ok (), [true]) :=
  unmount_not_mounted_idempotent envNm [] "/mnt/x" true
    (by decide) (by decide) (by decide)

/-- C7: when the command exits non-zero with a busy stderr and the user
declines the force prompt, the call fails with the busy stderr as its
error and the unmount command was executed exactly once (call trace
`[force]`). -/
theorem unmount_busy_decline_single_call (env : String → Bool → CmdOutput)
    (rest : List Bool) (mp : String) (force : Bool)
    (hc : (env mp force).code ≠ 0)
    (hb : includesLower (env mp force).stderr "busy" = true) :
    unmountRun env (false :: rest) mp force
      = (.error (env mp force).stderr, [force]) := by
  simp [unmountRun, hc, hb]

/-- Witness for the C7 theorem at a concrete scenario. -/
theorem unmount_busy_decline_single_call_witness :
    unmountRun envBusy7 [false] "/mnt/y" false = (.error "Resource Busy", [false]) :=
  unmount_busy_decline_single_call envBusy7 [] "/mnt/y" false (by decide) (by decide)

/-- C9: resolving the empty path yields exactly one directory suggestion
per known remote, in registry order, with name and path both
`remote ++ ":/"`, and leaves the field's error empty (and loading
finished). -/
theorem empty_path_lists_remotes (env : FsEnv) (w : Bool)
    (remotes : List String) (f : PFField) (st : PFState) :
    ((fetchStep env w remotes "" f st).get f).suggestions
      = remotes.map (fun r => { IsDir := true, Name := r ++ ":/", Path := r ++ ":/" })
  ∧ ((fetchStep env w remotes "" f st).get f).error = none
  ∧ ((fetchStep env w remotes "" f st).get f).isLoading = false := by
  simp [fetchStep, fetchOutcome, completionEffect, initEffect]

/-- C10: every state write of a resolution cycle and of a browse
interaction is a functional update of the invoked field's slot only, so
the other field's entire state (raw text, suggestions, loading flag,
error) is left unchanged. -/
theorem field_isolation (env : FsEnv) (w : Bool) (rs : List String)
    (p : String) (pick : Except String (Option String)) (f : PFField)
    (st : PFState) :
    (fetchStep env w rs p f st).get f.other = st.get f.other
  ∧ ((handleBrowseRun pick f st).st).get f.other = st.get f.other := by
  constructor
  · unfold fetchStep
    cases h : fetchOutcome env w rs p <;>
      simp [completionEffect, initEffect]
  · cases pick with
    | error e => simp [handleBrowseRun]
    | ok sel =>
      cases sel with
      | none => rfl
      | some s =>
        by_cases hs : s = "" <;> simp [handleBrowseRun, hs]

/-- C5 (counterexample): for a path containing two `":/"` occurrences the
claim says the sub-path is everything after the FIRST occurrence
(`"b:/c"`, whose single-trailing-slash strip is a no-op), but the code
splits on EVERY occurrence and rejoins with `"/"`, producing `"b/c"`. -/
theorem remote_split_multi_sep_cex :
    splitFirstSep2 ("a:/b:/c").data = some ("a".data, "b:/c".data)
  ∧ stripSlash ("b:/c").data = "b:/c".data
  ∧ parseRemotePath "a:/b:/c" = .ok ("a", "b/c")
  ∧ ("b/c" : String) ≠ "b:/c" := by
  decide

/-- C5 (amended): for every path containing `":/"` (split by
`splitFirstSep2` into the text `a` before the first occurrence and the
text `b` after it), the remote name is `a`, the sub-path is `b` with each
LATER `":/"` collapsed to `"/"` and a single trailing `"/"` stripped, and
parsing fails with the invalid-address error exactly when `a` is empty. -/
theorem remote_split_amended (p : String) (a b : List Char)
    (h : splitFirstSep2 p.data = some (a, b)) :
    parseRemotePath p =
      (if a.isEmpty then .error "Invalid remote path format"
       else .ok (String.mk a, String.mk (stripSlash (collapseSep b)))) := by
  unfold parseRemotePath
  rw [jsSplitSep2_of_first p.data a b h]
  simp only [intercalate_jsSplitSep2]

/-- Witness for the amended C5 theorem at a concrete remote address. -/
theorem remote_split_amended_witness :
    splitFirstSep2 ("gdrive:/Photos/").data = some ("gdrive".data, "Photos/".data)
  ∧ parseRemotePath "gdrive:/Photos/"
      = (if ("gdrive".data).isEmpty then .error "Invalid remote path format"
         else .ok (String.mk "gdrive".data,
                   String.mk (stripSlash (collapseSep ("Photos/").data)))) :=
  ⟨by decide, remote_split_amended "gdrive:/Photos/" "gdrive".data "Photos/".data (by decide)⟩

/-- C8: for a local listing that succeeds verbatim (first part) or after
the single parent-directory retry (second part), every suggestion comes
from a non-symlink entry of the listed directory and its `Path` is the
cleaned directory path (`path` verbatim, or the parent after a retry),
followed by the separator only when not already trailing, followed by the
entry name; conversely every non-symlink entry yields such a suggestion. -/
theorem local_listing_shape (env : FsEnv) (sep : Char) (path : String) :
    (∀ entries, env.readDir path = .ok entries →
      ((∀ s ∈ localSuggestions env sep path, ∃ e ∈ entries, e.isSymlink = false ∧
          s.IsDir = e.isDirectory ∧ s.Name = e.name ∧
          s.Path = path ++ extraSlash sep path ++ e.name) ∧
        (∀ e ∈ entries, e.isSymlink = false →
          ({ IsDir := e.isDirectory, Name := e.name,
             Path := path ++ extraSlash sep path ++ e.name } : Entry)
            ∈ localSuggestions env sep path)))
  ∧ (∀ m entries, env.readDir path = .error m →
      env.readDir (parentOf sep path) = .ok entries →
      ((∀ s ∈ localSuggestions env sep path, ∃ e ∈ entries, e.isSymlink = false ∧
          s.IsDir = e.isDirectory ∧ s.Name = e.name ∧
          s.Path = parentOf sep path ++ extraSlash sep (parentOf sep path) ++ e.name) ∧
        (∀ e ∈ entries, e.isSymlink = false →
          ({ IsDir := e.isDirectory, Name := e.name,
             Path := parentOf sep path ++ extraSlash sep (parentOf sep path) ++ e.name } : Entry)
            ∈ localSuggestions env sep path))) := by
  constructor
  · intro entries h
    constructor
    · intro s hs
      simp only [localSuggestions, localResolve, h, List.mem_map, List.mem_filter,
        Bool.not_eq_eq_eq_not, Bool.not_true] at hs
      obtain ⟨e, ⟨he, hsym⟩, rfl⟩ := hs
      exact ⟨e, he, hsym, rfl, rfl, rfl⟩
    · intro e he hsym
      simp only [localSuggestions, localResolve, h, List.mem_map, List.mem_filter,
        Bool.not_eq_eq_eq_not, Bool.not_true]
      exact ⟨e, ⟨he, hsym⟩, rfl⟩
  · intro m entries h1 h2
    constructor
    · intro s hs
      simp only [localSuggestions, localResolve, h1, h2, List.mem_map, List.mem_filter,
        Bool.not_eq_eq_eq_not, Bool.not_true] at hs
      obtain ⟨e, ⟨he, hsym⟩, rfl⟩ := hs
      exact ⟨e, he, hsym, rfl, rfl, rfl⟩
    · intro e he hsym
      simp only [localSuggestions, localResolve, h1, h2, List.mem_map, List.mem_filter,
        Bool.not_eq_eq_eq_not, Bool.not_true]
      exact ⟨e, ⟨he, hsym⟩, rfl⟩

/-- Witness for the C8 theorem: listing `/tmp/foo` on a filesystem where
only `/tmp` is listable retries with the parent and produces the
suggestion for `/tmp`'s non-symlink child rooted at the parent. -/
theorem local_listing_shape_witness :
    ({ IsDir := true, Name := "x",
       Path := parentOf '/' "/tmp/foo" ++ extraSlash '/' (parentOf '/' "/tmp/foo") ++ "x" } : Entry)
      ∈ localSuggestions envC8 '/' "/tmp/foo" :=
  ((local_listing_shape envC8 '/' "/tmp/foo").2 "nf"
      [⟨"x", true, false⟩, ⟨"ln", true, true⟩] (by decide) (by decide)).2
    ⟨"x", true, false⟩ (by decide) rfl

end RcloneUI
